import Mathlib

/-!
Shallow embedding of the MewZone marketplace application (Django project,
apps `core` and `shop`) and proofs about its registration/OTP flow, catalog
filtering, pricing, cart, image-primary invariant and admin approval
stamping.

Time is modelled as a natural number of minutes; `timezone.now()` becomes an
explicit `now : Nat` parameter.  The relational store becomes lists of
records; Django `Decimal` money becomes `ℚ` (exact rational arithmetic,
faithful to Python decimals for the operations used here).
-/

namespace Mewzone

/-- Roles are plain strings in the source (`request.POST.get` value compared
against the literal `SELLER`), so we keep them as strings. -/
abbrev Role := String

/-- `core.models.User` (fields relevant to the claims).  `password` stands
for the stored credential; hashing is abstracted away (the model keeps the
plaintext only to express `authenticate`, mirroring `set_password` /
`check_password` as an equality test). -/
structure User where
  uid : Nat
  email : String
  phone : String
  password : String
  role : Role
  is_verified : Bool
deriving DecidableEq, Repr

/-- `core.models.OTPVerification` (fields relevant to the claims). -/
structure OTPVerification where
  oid : Nat
  userId : Nat
  email : String
  otp_code : String
  verification_type : String
  created_at : Nat
  expires_at : Nat
  is_used : Bool
deriving DecidableEq, Repr

/-- The per-session state: the pending-verification marker
(`request.session[registration_email]`), the authenticated user
(`django.contrib.auth.login`) and the session cart. -/
structure Session where
  registration_email : Option String
  auth_user : Option Nat
  cart : List (String × Nat)
deriving DecidableEq, Repr

/-- The store plus the current session. -/
structure AppState where
  users : List User
  otps : List OTPVerification
  session : Session
deriving DecidableEq, Repr

/-- Truthiness test used by `otp_session_required`:
`request.session.get(registration_email)` is falsy when absent or the
empty string. -/
def hasPendingMarker (s : Session) : Bool :=
  match s.registration_email with
  | none => false
  | some e => !(e == "")

/-- The lookup condition of `verify_otp_view`:
`OTPVerification.objects.get(otp_code=otp_code, is_used=False,
expires_at__gt=timezone.now())`. -/
def otpMatches (now : Nat) (code : String) (o : OTPVerification) : Bool :=
  o.otp_code == code && o.is_used == false && decide (now < o.expires_at)

/-- Outcomes of `verify_otp_view`.  `sessionError` is the
`otp_session_required` redirect to registration; `invalidOtp` is the
`OTPVerification.DoesNotExist` branch; `multipleMatch` is the uncaught
`MultipleObjectsReturned` raised by `.get()` when several rows match. -/
inductive VerifyOutcome where
  | success (userId : Nat)
  | invalidOtp
  | sessionError
  | multipleMatch
deriving DecidableEq, Repr

/-- `core.views.verify_otp_view` guarded by
`core.decorators.otp_session_required`: on the unique match it marks the
record used, marks its user verified, logs that user in and pops
`registration_email`; on no match state is unchanged. -/
def verifyOtp (now : Nat) (code : String) (st : AppState) :
    VerifyOutcome × AppState :=
  if !hasPendingMarker st.session then (.sessionError, st)
  else
    match st.otps.filter (otpMatches now code) with
    | [] => (.invalidOtp, st)
    | [o] =>
        (.success o.userId,
          { users := st.users.map fun u =>
              if u.uid == o.userId then { u with is_verified := true } else u
            otps := st.otps.map fun x =>
              if x.oid == o.oid then { x with is_used := true } else x
            session := { registration_email := none
                         auth_user := some o.userId
                         cart := st.session.cart } })
    | _ => (.multipleMatch, st)

/-- Outcomes of `core.views.register_view`.  `validationError` covers the
three message-and-re-render branches; `valueError` is the uncaught
`ValueError` of `UserManager.create_user` on an empty email;
`redirectVerifyOtp` / `redirectLogin` are the two success redirects. -/
inductive RegisterOutcome where
  | validationError
  | valueError
  | redirectVerifyOtp
  | redirectLogin
deriving DecidableEq, Repr

/-- The POST fields read by `register_view`. -/
structure RegisterInput where
  first_name : String
  last_name : String
  email : String
  phone : String
  password1 : String
  password2 : String
  role : Role
deriving DecidableEq, Repr

/-- Blank-phone test of `register_view`:
`not phone or len(phone.strip()) == 0` — the phone is absent, empty, or
whitespace only (stripping every whitespace character leaves nothing). -/
def phoneBlank (phone : String) : Bool :=
  phone == "" || phone.toList.all fun c => c.isWhitespace

/-- `core.views.register_view` (POST branch).  `newUid` / `newOid` stand for
the fresh primary keys, `otpCode` for the value of
`core.utils.generate_otp()`.  Sellers get one `OTPVerification` expiring
`now + 10` (minutes) and the session marker; everyone else is saved with
`is_verified = True`. -/
def register (now newUid newOid : Nat) (otpCode : String)
    (inp : RegisterInput) (st : AppState) : RegisterOutcome × AppState :=
  if !(inp.password1 == inp.password2) then (.validationError, st)
  else if st.users.any (fun u => u.email == inp.email) then (.validationError, st)
  else if phoneBlank inp.phone then (.validationError, st)
  else if inp.email == "" then (.valueError, st)
  else
    let user : User :=
      { uid := newUid, email := inp.email, phone := inp.phone
        password := inp.password1, role := inp.role, is_verified := false }
    if inp.role == "SELLER" then
      let otp : OTPVerification :=
        { oid := newOid, userId := newUid, email := inp.email
          otp_code := otpCode, verification_type := "REGISTRATION"
          created_at := now, expires_at := now + 10, is_used := false }
      (.redirectVerifyOtp,
        { users := st.users ++ [user]
          otps := st.otps ++ [otp]
          session := { st.session with registration_email := some inp.email } })
    else
      (.redirectLogin,
        { users := st.users ++ [{ user with is_verified := true }]
          otps := st.otps
          session := st.session })

/-- `shop.models.Product` (fields relevant to the claims; `breed` is
flattened to its id and name, which is all the filter touches). -/
structure Product where
  pid : String
  name : String
  breed_id : String
  breed_name : String
  gender : String
  color : String
  price : ℚ
  discount_percentage : Nat
  is_approved : Bool
  created_at : Nat
deriving DecidableEq, Repr

/-- `shop.models.Mate` (fields relevant to the claims). -/
structure Mate where
  mid : String
  name : String
  is_approved : Bool
  created_at : Nat
deriving DecidableEq, Repr

/-- `shop.models.ProductReview` (fields relevant to the claims). -/
structure Review where
  product_id : String
  rating : Nat
  is_approved : Bool
deriving DecidableEq, Repr

/-- Stable insertion of `x` into `l` in front of the first element `y` with
`le x y`; used to model the order-by clauses of the query sets. -/
def insertLe (le : α → α → Bool) (x : α) : List α → List α
  | [] => [x]
  | y :: ys => if le x y then x :: y :: ys else y :: insertLe le x ys

/-- Insertion sort by a boolean comparator. -/
def sortLe (le : α → α → Bool) : List α → List α
  | [] => []
  | x :: xs => insertLe le x (sortLe le xs)

/-- Comparator for `order_by(-created_at)` on products. -/
def byCreatedDesc (a b : Product) : Bool :=
  b.created_at ≤ a.created_at

/-- Comparator for `order_by(-created_at)` on mates. -/
def mateByCreatedDesc (a b : Mate) : Bool :=
  b.created_at ≤ a.created_at

/-- The reviews of one product (`product_reviews` reverse relation). -/
def reviewsFor (reviews : List Review) (pid : String) : List Review :=
  reviews.filter fun r => r.product_id == pid

/-- The `avg_rating` annotation of the views:
`Avg(product_reviews__rating)` over ALL reviews of the product
(`NULL`, i.e. `none`, when the product has no reviews). -/
def avgRatingAll (reviews : List Review) (pid : String) : Option ℚ :=
  let rs := reviewsFor reviews pid
  if rs.isEmpty then none
  else some ((rs.map fun r => (r.rating : ℚ)).sum / rs.length)

/-- The `review_count` annotation: `Count(product_reviews)` over ALL
reviews of the product. -/
def reviewCountAll (reviews : List Review) (pid : String) : Nat :=
  (reviewsFor reviews pid).length

/-- Modelled from the spec: the average rating the spec describes, computed
"over APPROVED reviews only"; kept for comparison against the annotation
the views actually use. -/
def avgRatingApprovedOnly (reviews : List Review) (pid : String) : Option ℚ :=
  let rs := (reviewsFor reviews pid).filter fun r => r.is_approved
  if rs.isEmpty then none
  else some ((rs.map fun r => (r.rating : ℚ)).sum / rs.length)

/-- SQL ordering of nullable averages under descending sort with nulls
lowest (SQLite semantics, the project default backend): strict less-than on
`Option ℚ` with `none` below every value. -/
def optLtB (x y : Option ℚ) : Bool :=
  match x, y with
  | none, none => false
  | none, some _ => true
  | some _, none => false
  | some a, some b => decide (a < b)

/-- Lexicographic comparator over (nullable average, count, creation
time), every component descending: `x` may precede `y` iff `x` is at least
`y` in this order. -/
def chainLe (x y : Option ℚ × Nat × Nat) : Bool :=
  if x.1 = y.1 then
    if x.2.1 = y.2.1 then decide (y.2.2 ≤ x.2.2)
    else decide (y.2.1 < x.2.1)
  else optLtB y.1 x.1

/-- The sort key of `order_by(-avg_rating, -review_count,
-created_at)`. -/
def bsKey (reviews : List Review) (p : Product) : Option ℚ × Nat × Nat :=
  (avgRatingAll reviews p.pid, reviewCountAll reviews p.pid, p.created_at)

/-- Comparator for the best-sellers ordering: `a` may precede `b` iff
the key of `a` is lexicographically at least that of `b`. -/
def bsLe (reviews : List Review) (a b : Product) : Bool :=
  chainLe (bsKey reviews a) (bsKey reviews b)

/-- `best_sellers` of `core.views.browse_cats_view`: approved products
ordered by the rating/count/recency chain, first eight. -/
def best_sellers (db : List Product) (reviews : List Review) : List Product :=
  (sortLe (bsLe reviews) (db.filter fun p => p.is_approved)).take 8

/-- `latest_products` of `browse_cats_view`: approved, newest first, first
twelve. -/
def latest_products (db : List Product) : List Product :=
  (sortLe byCreatedDesc (db.filter fun p => p.is_approved)).take 12

/-- `newly_coming` of `browse_cats_view`: approved, newest first, slice
`[12:20]`. -/
def newly_coming (db : List Product) : List Product :=
  ((sortLe byCreatedDesc (db.filter fun p => p.is_approved)).drop 12).take 8

/-- Case-insensitive substring test modelling `name__icontains`. -/
def icontains (hay needle : String) : Bool :=
  (hay.toLower.splitOn needle.toLower).length > 1

/-- The GET parameters read by `core.views.filter_products_view`.
`min_price` / `max_price` are `none` when absent or when the `Decimal`
conversion raised (the `try/except: pass` swallows the failure and skips
the price filters). -/
structure FilterParams where
  name : String
  breed_ids : List String
  min_price : Option ℚ
  max_price : Option ℚ
  gender : List String
  colors : List String
deriving Repr

/-- `core.views.filter_products_view`: starts from
`Product.objects.filter(is_approved=True)`, narrows by each provided
parameter (breed matches by name or by id, the two querysets being OR-ed),
then orders newest-first and keeps twenty-four rows. -/
def filter_products (db : List Product) (fp : FilterParams) : List Product :=
  let qs := db.filter fun p => p.is_approved
  let qs := if fp.name == "" then qs else
    qs.filter fun p => icontains p.name fp.name
  let qs := if fp.breed_ids.isEmpty then qs else
    qs.filter fun p =>
      fp.breed_ids.contains p.breed_name || fp.breed_ids.contains p.breed_id
  let qs := match fp.min_price with
    | none => qs
    | some m => qs.filter fun p => decide (m ≤ p.price)
  let qs := match fp.max_price with
    | none => qs
    | some m => qs.filter fun p => decide (p.price ≤ m)
  let qs := if fp.gender.isEmpty then qs else
    qs.filter fun p => (fp.gender.map String.toUpper).contains p.gender
  let qs := if fp.colors.isEmpty then qs else
    qs.filter fun p => fp.colors.contains p.color
  (sortLe byCreatedDesc qs).take 24

/-- `core.views.mate_list_view`: `Mate.objects.filter(is_approved=True)`
ordered newest-first. -/
def mate_list (db : List Mate) : List Mate :=
  sortLe mateByCreatedDesc (db.filter fun m => m.is_approved)

/-- `shop.models.Product.discounted_price`:
`price * (1 - discount_percentage/100)` in exact decimal arithmetic when a
discount is set, the raw price otherwise. -/
def discounted_price (p : Product) : ℚ :=
  if p.discount_percentage > 0 then
    p.price * (1 - (p.discount_percentage : ℚ) / 100)
  else p.price

/-- Modelled from the spec: the authentication backend configuration (the
Django settings module and any auth backend) is not under `src/`; per the
spec, `login` authenticates by email+password and an unverified user
"remains unverified and cannot authenticate", so authentication requires a
matching email/password pair on a verified user. -/
def authenticate (users : List User) (email password : String) : Option User :=
  users.find? fun u =>
    u.email == email && u.password == password && u.is_verified

/-- `shop.models.ProductImage` / `shop.models.MateImage` (fields relevant
to the claims); `parent` is the owning listing id. -/
structure ListingImage where
  iid : Nat
  parent : String
  is_primary : Bool
deriving DecidableEq, Repr

/-- The `.update(is_primary=False)` bulk update of the two `save`
overrides: clears the primary flag on every image of `parent`. -/
def clearPrimary (parent : String) (imgs : List ListingImage) :
    List ListingImage :=
  imgs.map fun i =>
    if i.parent == parent && i.is_primary then { i with is_primary := false }
    else i

/-- `super().save()`: update the row with the image pk if present,
otherwise insert. -/
def upsertImage (imgs : List ListingImage) (img : ListingImage) :
    List ListingImage :=
  if imgs.any (fun i => i.iid == img.iid) then
    imgs.map fun i => if i.iid == img.iid then img else i
  else imgs ++ [img]

/-- `shop.models.ProductImage.save`: when the incoming image is primary,
first clear every other primary of the same product, then save. -/
def productImageSave (imgs : List ListingImage) (img : ListingImage) :
    List ListingImage :=
  let imgs1 := if img.is_primary then clearPrimary img.parent imgs else imgs
  upsertImage imgs1 img

/-- `shop.models.MateImage.save`: same primary-clearing, but a new image
(no pk in the store yet) is rejected with a `ValidationError` when the mate
already has five images; the clearing has already happened when the error
is raised, so the state change to the other rows persists.  Returns
`none` paired with the state on error. -/
def mateImageSave (imgs : List ListingImage) (img : ListingImage) :
    Option Unit × List ListingImage :=
  let imgs1 := if img.is_primary then clearPrimary img.parent imgs else imgs
  if !(imgs.any fun i => i.iid == img.iid) then
    if 5 ≤ (imgs1.filter fun i => i.parent == img.parent).length then
      (none, imgs1)
    else (some (), upsertImage imgs1 img)
  else (some (), upsertImage imgs1 img)

/-- Number of primary images a listing has in the store. -/
def primaryCount (parent : String) (imgs : List ListingImage) : Nat :=
  (imgs.filter fun i => i.parent == parent && i.is_primary).length

/-- `cart.get(key, 0)` on the session cart dictionary. -/
def cartGet (cart : List (String × Nat)) (k : String) : Nat :=
  ((cart.find? fun e => e.1 == k).map Prod.snd).getD 0

/-- `cart[key] = v` on the session cart dictionary. -/
def cartSet (cart : List (String × Nat)) (k : String) (v : Nat) :
    List (String × Nat) :=
  if cart.any (fun e => e.1 == k) then
    cart.map fun e => if e.1 == k then (k, v) else e
  else cart ++ [(k, v)]

/-- `core.views.add_to_cart_view`: looks the product up with
`Product.objects.get(id=product_id, is_approved=True)` (an unknown or
unapproved id raises `DoesNotExist`, modelled as `none`), then
`cart[key] = cart.get(key, 0) + max(quantity, 1)`. -/
def addToCart (db : List Product) (cart : List (String × Nat))
    (productId : String) (qty : Int) : Option (List (String × Nat)) :=
  match db.find? (fun p => p.pid == productId && p.is_approved) with
  | none => none
  | some p =>
      some (cartSet cart p.pid (cartGet cart p.pid + (max qty 1).toNat))

/-- `core.views.cart_view` total: over the products whose id is a cart
key, sum `effective price × quantity` (the per-line price is
`discounted_price` when a discount is set, which is exactly
`discounted_price` as defined above). -/
def cartTotal (db : List Product) (cart : List (String × Nat)) : ℚ :=
  ((db.filter fun p => cart.any fun e => e.1 == p.pid).map
    fun p => discounted_price p * (cartGet cart p.pid : ℚ)).sum

/-- `core.views.checkout_view` (POST): `request.session.pop(cart, None)`. -/
def checkout (s : Session) : Session :=
  { s with cart := [] }

/-- The approval fields of a `Mate` as seen by the admin form. -/
structure MateApproval where
  is_approved : Bool
  approved_at : Option Nat
deriving DecidableEq, Repr

/-- `shop.admin.MateAdmin.save_model`: stamp `approved_at = now` when the
object is approved without a timestamp, clear it when unapproved with one
(a `datetime` is always truthy, so `not obj.approved_at` is exactly
`approved_at is None`). -/
def mateAdminSaveModel (now : Nat) (obj : MateApproval) : MateApproval :=
  if obj.is_approved && obj.approved_at.isNone then
    { obj with approved_at := some now }
  else if !obj.is_approved && obj.approved_at.isSome then
    { obj with approved_at := none }
  else obj

/-! ### Concrete sample records used to instantiate the theorems -/

/-- A discounted approved product. -/
def wProd : Product :=
  ⟨"p1", "Mew", "b1", "Persian", "MALE", "White", 100, 25, true, 5⟩

/-- An undiscounted approved product. -/
def wProdND : Product :=
  ⟨"p2", "Paw", "b2", "Siamese", "FEMALE", "Black", 50, 0, true, 9⟩

/-- An unapproved product. -/
def wProdHidden : Product :=
  ⟨"p3", "Shy", "b1", "Persian", "MALE", "Gray", 10, 0, false, 7⟩

/-- An unapproved mate. -/
def wMateHidden : Mate := ⟨"m1", "Tom", false, 3⟩

/-- An unapproved five-star review of `wProdND`. -/
def wReviewUnapproved : Review := ⟨"p2", 5, false⟩

/-- A seller pending verification. -/
def wUserA : User := ⟨1, "a@x.com", "111", "pwA", "SELLER", false⟩

/-- A second seller pending verification. -/
def wUserB : User := ⟨2, "b@x.com", "222", "pwB", "SELLER", false⟩

/-- The OTP issued to `wUserB`. -/
def wOtpB : OTPVerification :=
  ⟨10, 2, "b@x.com", "222222", "REGISTRATION", 0, 10, false⟩

/-- A second OTP row that happens to carry the same code as `wOtpB`
(`generate_otp` does not avoid collisions). -/
def wOtpB2 : OTPVerification :=
  ⟨11, 2, "b@x.com", "222222", "REGISTRATION", 0, 10, false⟩

/-- A session pending verification for `wUserA`. -/
def wSession : Session := ⟨some "a@x.com", none, []⟩

/-- Store with both sellers and the single OTP of B, session pending for A. -/
def wState : AppState := ⟨[wUserA, wUserB], [wOtpB], wSession⟩

/-- Store where two OTP rows share one code. -/
def wStateDup : AppState := ⟨[wUserA, wUserB], [wOtpB, wOtpB2], wSession⟩

/-- A primary image of listing `p1`. -/
def wImg1 : ListingImage := ⟨1, "p1", true⟩

/-- A second image of listing `p1`, being saved as primary. -/
def wImg2 : ListingImage := ⟨2, "p1", true⟩

/-- A mate approved by the admin form with no timestamp yet. -/
def wApproval : MateApproval := ⟨true, none⟩

/-- A seller registration submission. -/
def wRegInput : RegisterInput :=
  ⟨"Ann", "Lee", "c@x.com", "0170", "pw", "pw", "SELLER"⟩

/-- A normal-user registration submission. -/
def wRegInputN : RegisterInput :=
  ⟨"Bob", "Kim", "d@x.com", "0171", "pw", "pw", "NORMAL"⟩

/-- An empty filter request. -/
def wEmptyFilter : FilterParams := ⟨"", [], none, none, [], []⟩

/-- A fresh store with an empty session. -/
def wEmptyState : AppState := ⟨[], [], ⟨none, none, []⟩⟩

/-! ### Helper lemmas about the sorting and filtering machinery -/

theorem mem_insertLe {le : α → α → Bool} {x a : α} {l : List α} :
    a ∈ insertLe le x l ↔ a = x ∨ a ∈ l := by
  induction l with
  | nil => simp [insertLe]
  | cons y ys ih =>
      by_cases h : le x y = true
      · simp [insertLe, h]
      · simp only [insertLe, h, Bool.false_eq_true, if_false, List.mem_cons, ih]
        tauto

theorem mem_sortLe {le : α → α → Bool} {a : α} {l : List α} :
    a ∈ sortLe le l ↔ a ∈ l := by
  induction l with
  | nil => simp [sortLe]
  | cons y ys ih => simp [sortLe, mem_insertLe, ih]

theorem length_insertLe {le : α → α → Bool} {x : α} {l : List α} :
    (insertLe le x l).length = l.length + 1 := by
  induction l with
  | nil => simp [insertLe]
  | cons y ys ih =>
      by_cases h : le x y = true <;> simp [insertLe, h, ih]

theorem length_sortLe {le : α → α → Bool} {l : List α} :
    (sortLe le l).length = l.length := by
  induction l with
  | nil => rfl
  | cons y ys ih => simp [sortLe, length_insertLe, ih]

theorem pairwise_insertLe {le : α → α → Bool}
    (total : ∀ a b, le a b = true ∨ le b a = true)
    (trans : ∀ a b c, le a b = true → le b c = true → le a c = true)
    {x : α} {l : List α} (hl : l.Pairwise fun a b => le a b = true) :
    (insertLe le x l).Pairwise fun a b => le a b = true := by
  induction l with
  | nil => simp [insertLe]
  | cons y ys ih =>
      rcases List.pairwise_cons.mp hl with ⟨hy, hys⟩
      by_cases h : le x y = true
      · simp only [insertLe, h, if_true]
        refine List.pairwise_cons.mpr ⟨?_, hl⟩
        intro b hb
        rcases List.mem_cons.mp hb with hb | hb
        · exact hb ▸ h
        · exact trans x y b h (hy b hb)
      · have hyx : le y x = true := (total x y).resolve_left h
        simp only [insertLe, h, Bool.false_eq_true, if_false]
        refine List.pairwise_cons.mpr ⟨?_, ih hys⟩
        intro b hb
        rcases mem_insertLe.mp hb with hb | hb
        · exact hb ▸ hyx
        · exact hy b hb

theorem pairwise_sortLe {le : α → α → Bool}
    (total : ∀ a b, le a b = true ∨ le b a = true)
    (trans : ∀ a b c, le a b = true → le b c = true → le a c = true)
    (l : List α) :
    (sortLe le l).Pairwise fun a b => le a b = true := by
  induction l with
  | nil => simp [sortLe]
  | cons y ys ih => exact pairwise_insertLe total trans ih

theorem byCreatedDesc_total (a b : Product) :
    byCreatedDesc a b = true ∨ byCreatedDesc b a = true := by
  simp only [byCreatedDesc, decide_eq_true_eq]
  omega

theorem byCreatedDesc_trans (a b c : Product)
    (h1 : byCreatedDesc a b = true) (h2 : byCreatedDesc b c = true) :
    byCreatedDesc a c = true := by
  simp only [byCreatedDesc, decide_eq_true_eq] at *
  omega

theorem mateByCreatedDesc_total (a b : Mate) :
    mateByCreatedDesc a b = true ∨ mateByCreatedDesc b a = true := by
  simp only [mateByCreatedDesc, decide_eq_true_eq]
  omega

theorem mateByCreatedDesc_trans (a b c : Mate)
    (h1 : mateByCreatedDesc a b = true) (h2 : mateByCreatedDesc b c = true) :
    mateByCreatedDesc a c = true := by
  simp only [mateByCreatedDesc, decide_eq_true_eq] at *
  omega

theorem optLtB_trans {x y z : Option ℚ} (h1 : optLtB x y = true)
    (h2 : optLtB y z = true) : optLtB x z = true := by
  cases x <;> cases y <;> cases z <;> simp_all [optLtB]
  linarith

theorem optLtB_total (x y : Option ℚ) :
    optLtB x y = true ∨ optLtB y x = true ∨ x = y := by
  cases x with
  | none =>
      cases y with
      | none => simp [optLtB]
      | some b => simp [optLtB]
  | some a =>
      cases y with
      | none => simp [optLtB]
      | some b =>
          simp only [optLtB, decide_eq_true_eq, Option.some.injEq]
          rcases lt_trichotomy a b with h | h | h
          · exact Or.inl h
          · exact Or.inr (Or.inr h)
          · exact Or.inr (Or.inl h)

theorem optLtB_asymm {x y : Option ℚ} (h : optLtB x y = true) :
    ¬ optLtB y x = true := by
  cases x <;> cases y <;> simp_all [optLtB]
  linarith

theorem optLtB_irrefl (x : Option ℚ) : optLtB x x = false := by
  cases x <;> simp [optLtB]

theorem chainLe_total (x y : Option ℚ × Nat × Nat) :
    chainLe x y = true ∨ chainLe y x = true := by
  by_cases h1 : x.1 = y.1
  · by_cases h2 : x.2.1 = y.2.1
    · rw [chainLe, if_pos h1, if_pos h2, chainLe, if_pos h1.symm,
        if_pos h2.symm]
      simp only [decide_eq_true_eq]
      omega
    · rw [chainLe, if_pos h1, if_neg h2, chainLe, if_pos h1.symm,
        if_neg (Ne.symm h2)]
      simp only [decide_eq_true_eq]
      omega
  · rw [chainLe, if_neg h1, chainLe, if_neg (fun h => h1 h.symm)]
    rcases optLtB_total x.1 y.1 with h | h | h
    · exact Or.inr h
    · exact Or.inl h
    · exact absurd h h1

theorem chainLe_trans (x y z : Option ℚ × Nat × Nat)
    (h1 : chainLe x y = true) (h2 : chainLe y z = true) :
    chainLe x z = true := by
  by_cases e1 : x.1 = y.1 <;> by_cases e2 : y.1 = z.1
  · rw [chainLe, if_pos e1] at h1
    rw [chainLe, if_pos e2] at h2
    rw [chainLe, if_pos (e1.trans e2)]
    by_cases c1 : x.2.1 = y.2.1 <;> by_cases c2 : y.2.1 = z.2.1
    · rw [if_pos c1, decide_eq_true_eq] at h1
      rw [if_pos c2, decide_eq_true_eq] at h2
      rw [if_pos (c1.trans c2), decide_eq_true_eq]
      omega
    · rw [if_pos c1] at h1
      rw [if_neg c2, decide_eq_true_eq] at h2
      rw [if_neg (c1 ▸ c2), decide_eq_true_eq]
      omega
    · rw [if_neg c1, decide_eq_true_eq] at h1
      rw [if_pos c2] at h2
      rw [if_neg (c2 ▸ c1), decide_eq_true_eq]
      omega
    · rw [if_neg c1, decide_eq_true_eq] at h1
      rw [if_neg c2, decide_eq_true_eq] at h2
      rw [if_neg (by omega : ¬ x.2.1 = z.2.1), decide_eq_true_eq]
      omega
  · rw [chainLe, if_neg e2] at h2
    have exz : ¬ x.1 = z.1 := by
      intro h
      rw [← h, ← e1] at h2
      exact (Bool.eq_false_iff.mp (optLtB_irrefl x.1)) h2
    rw [chainLe, if_neg exz]
    rw [← e1] at h2
    exact h2
  · rw [chainLe, if_neg e1] at h1
    have exz : ¬ x.1 = z.1 := by
      intro h
      rw [h, e2] at h1
      exact (Bool.eq_false_iff.mp (optLtB_irrefl z.1)) h1
    rw [chainLe, if_neg exz]
    rw [e2] at h1
    exact h1
  · rw [chainLe, if_neg e1] at h1
    rw [chainLe, if_neg e2] at h2
    have exz : ¬ x.1 = z.1 := by
      intro h
      rw [h] at h1
      exact optLtB_asymm h1 h2
    rw [chainLe, if_neg exz]
    exact optLtB_trans h2 h1

theorem bsLe_total (reviews : List Review) (a b : Product) :
    bsLe reviews a b = true ∨ bsLe reviews b a = true :=
  chainLe_total (bsKey reviews a) (bsKey reviews b)

theorem bsLe_trans (reviews : List Review) (a b c : Product)
    (h1 : bsLe reviews a b = true) (h2 : bsLe reviews b c = true) :
    bsLe reviews a c = true :=
  chainLe_trans (bsKey reviews a) (bsKey reviews b) (bsKey reviews c) h1 h2

theorem mem_filter_products_approved {db : List Product} {fp : FilterParams}
    {p : Product} (hp : p ∈ filter_products db fp) : p.is_approved = true := by
  simp only [filter_products] at hp
  replace hp := mem_sortLe.mp (List.take_subset _ _ hp)
  rcases hmin : fp.min_price with _ | m1 <;>
    rcases hmax : fp.max_price with _ | m2 <;>
    rcases Bool.eq_false_or_eq_true (fp.name == "") with hn | hn <;>
    rcases Bool.eq_false_or_eq_true fp.breed_ids.isEmpty with hb | hb <;>
    rcases Bool.eq_false_or_eq_true fp.gender.isEmpty with hg | hg <;>
    rcases Bool.eq_false_or_eq_true fp.colors.isEmpty with hc | hc <;>
    simp only [hmin, hmax, hn, hb, hg, hc, Bool.false_eq_true, if_true,
      if_false, List.mem_filter] at hp <;>
    tauto

theorem mem_latest_products_approved {db : List Product} {p : Product}
    (hp : p ∈ latest_products db) : p.is_approved = true := by
  simp only [latest_products] at hp
  replace hp := mem_sortLe.mp (List.take_subset _ _ hp)
  exact (List.mem_filter.mp hp).2

theorem mem_newly_coming_approved {db : List Product} {p : Product}
    (hp : p ∈ newly_coming db) : p.is_approved = true := by
  simp only [newly_coming] at hp
  replace hp := mem_sortLe.mp
    (List.drop_subset _ _ (List.take_subset _ _ hp))
  exact (List.mem_filter.mp hp).2

theorem mem_best_sellers_approved {db : List Product} {reviews : List Review}
    {p : Product} (hp : p ∈ best_sellers db reviews) :
    p.is_approved = true := by
  simp only [best_sellers] at hp
  replace hp := mem_sortLe.mp (List.take_subset _ _ hp)
  exact (List.mem_filter.mp hp).2

theorem mem_mate_list_approved {mdb : List Mate} {m : Mate}
    (hm : m ∈ mate_list mdb) : m.is_approved = true := by
  simp only [mate_list] at hm
  replace hm := mem_sortLe.mp hm
  exact (List.mem_filter.mp hm).2

/-! ### C3: unapproved listings never surface -/

/-- C3: for every unapproved Product or Mate and every combination of
filter parameters, the listing never appears in the browse, filter, or
mate-list query results: those queries return only approved rows. -/
theorem C3_unapproved_never_listed (db : List Product) (mdb : List Mate)
    (reviews : List Review) (fp : FilterParams) (p : Product) (m : Mate)
    (hp : p.is_approved = false) (hm : m.is_approved = false) :
    p ∉ filter_products db fp ∧ p ∉ latest_products db ∧
    p ∉ best_sellers db reviews ∧ p ∉ newly_coming db ∧
    m ∉ mate_list mdb := by
  refine ⟨fun h => ?_, fun h => ?_, fun h => ?_, fun h => ?_, fun h => ?_⟩
  · rw [mem_filter_products_approved h] at hp; exact Bool.true_eq_false.mp hp
  · rw [mem_latest_products_approved h] at hp; exact Bool.true_eq_false.mp hp
  · rw [mem_best_sellers_approved h] at hp; exact Bool.true_eq_false.mp hp
  · rw [mem_newly_coming_approved h] at hp; exact Bool.true_eq_false.mp hp
  · rw [mem_mate_list_approved h] at hm; exact Bool.true_eq_false.mp hm

/-- Witness for C3: the unapproved `wProdHidden` and `wMateHidden` are
absent from the queries over a concrete store containing them. -/
theorem C3_unapproved_never_listed_witness :
    wProdHidden ∉ filter_products [wProd, wProdND, wProdHidden] wEmptyFilter ∧
    wProdHidden ∉ best_sellers [wProd, wProdND, wProdHidden] [] ∧
    wMateHidden ∉ mate_list [wMateHidden] :=
  let h := C3_unapproved_never_listed [wProd, wProdND, wProdHidden]
    [wMateHidden] [] wEmptyFilter wProdHidden wMateHidden rfl rfl
  ⟨h.1, h.2.2.1, h.2.2.2.2⟩

/-! ### C4: ratings annotation and best-sellers ordering -/

/-- C4 (amended): the derived average rating and review count are computed
over ALL reviews of the product, approved or not; the best-sellers list
contains only approved products, ordered by average rating descending,
then review count descending, then creation time descending, in that fixed
order, keeping eight rows; products with no reviews sort below every rated
product (null average lowest, the "rating 0" behaviour). -/
theorem C4_best_sellers_ordering (db : List Product) (reviews : List Review) :
    (∀ p ∈ best_sellers db reviews, p.is_approved = true) ∧
    (best_sellers db reviews).Pairwise
      (fun a b => bsLe reviews a b = true) ∧
    (best_sellers db reviews).length =
      min 8 (db.filter fun p => p.is_approved).length ∧
    (∀ a b : Product, reviewsFor reviews a.pid = [] →
      ¬ reviewsFor reviews b.pid = [] →
      bsLe reviews b a = true ∧ bsLe reviews a b = false) := by
  refine ⟨fun p hp => mem_best_sellers_approved hp, ?_, ?_, ?_⟩
  · exact List.Pairwise.sublist (List.take_sublist _ _)
      (pairwise_sortLe (bsLe_total reviews) (bsLe_trans reviews) _)
  · simp [best_sellers, List.length_take, length_sortLe]
  · intro a b ha hb
    have ha' : avgRatingAll reviews a.pid = none := by
      simp [avgRatingAll, ha]
    have hb' : (reviewsFor reviews b.pid).isEmpty = false := by
      simpa [List.isEmpty_iff] using hb
    have hb2 : avgRatingAll reviews b.pid =
        some (((reviewsFor reviews b.pid).map fun r => (r.rating : ℚ)).sum /
          (reviewsFor reviews b.pid).length) := by
      rw [avgRatingAll]
      simp [hb']
    constructor
    · rw [bsLe, chainLe, bsKey, bsKey]
      simp only [ha', hb2]
      rw [if_neg (by simp)]
      simp [optLtB]
    · rw [bsLe, chainLe, bsKey, bsKey]
      simp only [ha', hb2]
      rw [if_neg (by simp)]
      simp [optLtB]

/-- Witness for C4 on a concrete store: the two approved products are
listed, in rating-first order, and the unrated-sorts-lowest clause applies
to `wProdND` (unrated) against `wProd` (rated via its unapproved review). -/
theorem C4_best_sellers_ordering_witness :
    (∀ p ∈ best_sellers [wProd, wProdND] [⟨"p1", 5, false⟩],
      p.is_approved = true) ∧
    (bsLe [⟨"p1", 5, false⟩] wProd wProdND = true ∧
      bsLe [⟨"p1", 5, false⟩] wProdND wProd = false) :=
  ⟨(C4_best_sellers_ordering [wProd, wProdND] [⟨"p1", 5, false⟩]).1,
    (C4_best_sellers_ordering [wProd, wProdND] [⟨"p1", 5, false⟩]).2.2.2
      wProdND wProd (by decide) (by decide)⟩

/-- Counterexample for C4 as stated: a single unapproved five-star review
of `wProd` is counted by the annotation the views use (average 5, count
1), while the average over approved reviews only would be null; as a
result `wProd` outranks the newer `wProdND` in the best-sellers list,
which the approved-only reading would forbid. -/
theorem C4_counterexample :
    avgRatingAll [⟨"p1", 5, false⟩] "p1" = some 5 ∧
    reviewCountAll [⟨"p1", 5, false⟩] "p1" = 1 ∧
    avgRatingApprovedOnly [⟨"p1", 5, false⟩] "p1" = none ∧
    best_sellers [wProd, wProdND] [⟨"p1", 5, false⟩] = [wProd, wProdND] ∧
    wProd.created_at < wProdND.created_at := by
  have h1 : avgRatingAll [⟨"p1", 5, false⟩] "p1" = some 5 := by
    rw [avgRatingAll]
    norm_num [reviewsFor]
  have h2 : avgRatingAll [⟨"p1", 5, false⟩] "p2" = none := by
    simp [avgRatingAll, reviewsFor]
  have hle : bsLe [⟨"p1", 5, false⟩] wProd wProdND = true := by
    rw [bsLe, chainLe, bsKey, bsKey]
    simp [wProd, wProdND, h1, h2, optLtB]
  have ha1 : wProd.is_approved = true := rfl
  have ha2 : wProdND.is_approved = true := rfl
  refine ⟨h1, by decide, by decide, ?_, by decide⟩
  rw [best_sellers]
  simp [sortLe, insertLe, hle, ha1, ha2]

/-! ### C5: effective price -/

/-- C5: for every listing, the effective price equals
`price × (1 − discount_percentage/100)` when `discount_percentage > 0` and
the unchanged price when it is `0`, in exact rational arithmetic; in
particular price 100.00 with discount 25 yields exactly 75.00. -/
theorem C5_effective_price (p : Product) :
    (0 < p.discount_percentage →
      discounted_price p = p.price * (1 - (p.discount_percentage : ℚ) / 100)) ∧
    (p.discount_percentage = 0 → discounted_price p = p.price) ∧
    (p.price = 100 ∧ p.discount_percentage = 25 → discounted_price p = 75) := by
  refine ⟨fun h => ?_, fun h => ?_, fun h => ?_⟩
  · simp [discounted_price, h]
  · simp [discounted_price, h]
  · rw [discounted_price, if_pos (by omega : p.discount_percentage > 0),
      h.1, h.2]
    norm_num

/-- Witness for C5 at the concrete product `wProd`
(price 100.00, discount 25). -/
theorem C5_effective_price_witness :
    (0 < wProd.discount_percentage ∧ discounted_price wProd = 75) ∧
    (wProdND.discount_percentage = 0 ∧
      discounted_price wProdND = wProdND.price) :=
  ⟨⟨by decide, (C5_effective_price wProd).2.2 ⟨rfl, rfl⟩⟩,
   ⟨rfl, (C5_effective_price wProdND).2.1 rfl⟩⟩

/-! ### C8: admin approval timestamp stamping -/

/-- C8: for every Mate saved through `MateAdmin.save_model`, approving with
no timestamp stamps `approved_at = now`, un-approving clears it, and after
every save `approved_at` is set exactly when `is_approved` is true. -/
theorem C8_mate_admin_stamp (now : Nat) (obj : MateApproval) :
    ((mateAdminSaveModel now obj).is_approved = true →
      (mateAdminSaveModel now obj).approved_at.isSome = true) ∧
    ((mateAdminSaveModel now obj).is_approved = false →
      (mateAdminSaveModel now obj).approved_at = none) ∧
    (obj.is_approved = true → obj.approved_at = none →
      (mateAdminSaveModel now obj).approved_at = some now) ∧
    (obj.is_approved = false → obj.approved_at.isSome = true →
      (mateAdminSaveModel now obj).approved_at = none) ∧
    (mateAdminSaveModel now obj).is_approved = obj.is_approved := by
  obtain ⟨app, ts⟩ := obj
  cases app <;> cases ts <;> simp [mateAdminSaveModel]

/-- Witness for C8: approving `wApproval` (approved, no timestamp) at time
7 stamps `approved_at = 7`. -/
theorem C8_mate_admin_stamp_witness :
    (mateAdminSaveModel 7 wApproval).approved_at = some 7 :=
  (C8_mate_admin_stamp 7 wApproval).2.2.1 rfl rfl

/-! ### C6: single-primary-image invariant -/

theorem length_filter_map_le {l : List α} {f : α → α} {p : α → Bool}
    (h : ∀ a ∈ l, p (f a) = true → p a = true) :
    ((l.map f).filter p).length ≤ (l.filter p).length := by
  induction l with
  | nil => simp
  | cons a as ih =>
      have ih2 := ih fun b hb hpb => h b (List.mem_cons_of_mem a hb) hpb
      simp only [List.map_cons, List.filter_cons]
      by_cases hfa : p (f a) = true
      · rw [if_pos hfa, if_pos (h a (List.mem_cons_self a as) hfa)]
        simpa using ih2
      · rw [if_neg hfa]
        refine le_trans ih2 ?_
        split
        · simp
        · exact le_refl _

theorem map_id_of_eq {l : List α} {f : α → α} (h : ∀ a ∈ l, f a = a) :
    l.map f = l := by
  induction l with
  | nil => rfl
  | cons a as ih =>
      simp only [List.map_cons]
      rw [h a (List.mem_cons_self a as),
        ih fun b hb => h b (List.mem_cons_of_mem a hb)]

theorem clearPrimary_map_iid (P : String) (imgs : List ListingImage) :
    (clearPrimary P imgs).map (fun i => i.iid) = imgs.map fun i => i.iid := by
  rw [clearPrimary, List.map_map]
  exact List.map_congr_left fun i _ => by
    simp only [Function.comp_apply]
    split <;> rfl

theorem clearPrimary_cleared {P : String} {imgs : List ListingImage} :
    ∀ i ∈ clearPrimary P imgs, i.parent = P → i.is_primary = false := by
  intro i hi
  rcases List.mem_map.mp hi with ⟨j, hj, rfl⟩
  split
  · intro _
    rfl
  · intro hip
    rename_i hcond
    by_cases hb : j.is_primary = true
    · exact absurd (by simp [hip, hb]) hcond
    · rwa [Bool.not_eq_true] at hb

theorem primaryCount_clearPrimary_self (P : String)
    (imgs : List ListingImage) :
    primaryCount P (clearPrimary P imgs) = 0 := by
  rw [primaryCount, List.length_eq_zero, List.filter_eq_nil_iff]
  intro i hi
  intro hcontra
  simp only [Bool.and_eq_true, beq_iff_eq] at hcontra
  exact absurd (clearPrimary_cleared i hi hcontra.1)
    (by rw [hcontra.2]; exact fun h => Bool.true_eq_false.mp h)

theorem primaryCount_clearPrimary_le (L P : String)
    (imgs : List ListingImage) :
    primaryCount L (clearPrimary P imgs) ≤ primaryCount L imgs := by
  rw [primaryCount, primaryCount, clearPrimary]
  refine length_filter_map_le fun a _ hpa => ?_
  by_cases h : (a.parent == P && a.is_primary) = true
  · rw [if_pos h] at hpa
    simp at hpa
  · rwa [if_neg h] at hpa

theorem primaryCount_append (L : String) (imgs : List ListingImage)
    (img : ListingImage) :
    primaryCount L (imgs ++ [img]) = primaryCount L imgs +
      (if (img.parent == L && img.is_primary) = true then 1 else 0) := by
  rw [primaryCount, primaryCount, List.filter_append, List.length_append]
  congr 1
  by_cases h : (img.parent == L && img.is_primary) = true <;>
    simp [List.filter, h]

theorem count_update_eq_one {imgs : List ListingImage} {img : ListingImage}
    (hnd : (imgs.map fun i => i.iid).Nodup)
    (hcl : ∀ i ∈ imgs, i.parent = img.parent → i.is_primary = false)
    (hmem : imgs.any (fun i => i.iid == img.iid) = true)
    (hprim : img.is_primary = true) :
    primaryCount img.parent
      (imgs.map fun i => if i.iid == img.iid then img else i) = 1 := by
  induction imgs with
  | nil => simp at hmem
  | cons a as ih =>
      simp only [List.map_cons, List.nodup_cons] at hnd
      simp only [primaryCount, List.map_cons, List.filter_cons]
      by_cases ha : (a.iid == img.iid) = true
      · rw [if_pos ha, if_pos (by simp [hprim])]
        have hnot : ∀ b ∈ as, (b.iid == img.iid) = false := by
          intro b hb
          by_cases h : (b.iid == img.iid) = true
          · refine absurd ?_ hnd.1
            have hb1 : b.iid = img.iid := beq_iff_eq.mp h
            have ha1 : a.iid = img.iid := beq_iff_eq.mp ha
            rw [ha1, ← hb1]
            exact List.mem_map_of_mem _ hb
          · rwa [Bool.not_eq_true] at h
        have hmap : (as.map fun i => if i.iid == img.iid then img else i) =
            as :=
          map_id_of_eq fun b hb => if_neg (by simp [hnot b hb])
        rw [hmap]
        have hnil : as.filter
            (fun j => j.parent == img.parent && j.is_primary) = [] := by
          rw [List.filter_eq_nil_iff]
          intro b hb hcontra
          simp only [Bool.and_eq_true, beq_iff_eq] at hcontra
          have := hcl b (List.mem_cons_of_mem a hb) hcontra.1
          rw [hcontra.2] at this
          exact Bool.true_eq_false.mp this
        simp [hnil]
      · rw [if_neg ha]
        have hpa : (a.parent == img.parent && a.is_primary) = false := by
          by_cases h : (a.parent == img.parent) = true
          · have := hcl a (List.mem_cons_self a as) (beq_iff_eq.mp h)
            simp [this]
          · rw [Bool.not_eq_true] at h
            simp [h]
        rw [if_neg (by simp [hpa])]
        have hmem2 : as.any (fun i => i.iid == img.iid) = true := by
          simp only [List.any_cons, ha, Bool.false_or] at hmem
          exact hmem
        exact ih hnd.2 (fun i hi => hcl i (List.mem_cons_of_mem a hi)) hmem2

theorem any_iid_clearPrimary (P : String) (imgs : List ListingImage)
    (k : Nat) :
    (clearPrimary P imgs).any (fun i => i.iid == k) =
      imgs.any fun i => i.iid == k := by
  induction imgs with
  | nil => rfl
  | cons a as ih =>
      simp only [clearPrimary, List.map_cons, List.any_cons] at *
      rw [ih]
      congr 1
      by_cases h : (a.parent == P && a.is_primary) = true <;> simp [h]

theorem productImageSave_primary_count {imgs : List ListingImage}
    {img : ListingImage} (hnd : (imgs.map fun i => i.iid).Nodup)
    (hprim : img.is_primary = true) :
    primaryCount img.parent (productImageSave imgs img) = 1 := by
  rw [productImageSave, if_pos hprim, upsertImage]
  by_cases hmem : ((clearPrimary img.parent imgs).any
      fun i => i.iid == img.iid) = true
  · rw [if_pos hmem]
    refine count_update_eq_one ?_ (fun i hi => clearPrimary_cleared i hi)
      hmem hprim
    rw [clearPrimary_map_iid]
    exact hnd
  · rw [if_neg hmem, primaryCount_append,
      primaryCount_clearPrimary_self, if_pos (by simp [hprim])]

theorem primaryCount_upsert_le {imgs : List ListingImage}
    {img : ListingImage} {L : String} (hL : ¬ img.parent = L ∨
      img.is_primary = false) :
    primaryCount L (upsertImage imgs img) ≤ primaryCount L imgs := by
  have hpred : (img.parent == L && img.is_primary) = false := by
    rcases hL with h | h
    · simp [beq_eq_false_iff_ne.mpr h]
    · simp [h]
  rw [upsertImage]
  by_cases hmem : (imgs.any fun i => i.iid == img.iid) = true
  · rw [if_pos hmem, primaryCount, primaryCount]
    refine length_filter_map_le fun a _ hpa => ?_
    by_cases ha : (a.iid == img.iid) = true
    · rw [if_pos ha] at hpa
      rw [hpa] at hpred
      exact absurd hpred (by simp)
    · rwa [if_neg ha] at hpa
  · rw [if_neg hmem, primaryCount_append, if_neg (by simp [hpred])]
    omega

theorem mateImageSave_success_eq {imgs : List ListingImage}
    {img : ListingImage}
    (h : (mateImageSave imgs img).1.isSome = true) :
    (mateImageSave imgs img).2 = productImageSave imgs img := by
  rw [mateImageSave] at h ⊢
  rw [productImageSave]
  split_ifs at h ⊢ <;> first | rfl | simp at h

theorem mateImageSave_failure_eq {imgs : List ListingImage}
    {img : ListingImage} (h : (mateImageSave imgs img).1 = none) :
    (mateImageSave imgs img).2 =
      (if img.is_primary then clearPrimary img.parent imgs else imgs) := by
  rw [mateImageSave] at h ⊢
  split_ifs at h ⊢ <;> rfl

/-- C6: saving a listing image with `is_primary = true` clears the primary
flag on every other image of the same listing, leaving exactly one primary
image there (or zero when the mate image cap rejects the save); and for
every listing, one save step preserves the at-most-one-primary invariant,
for both the product and the mate save paths. -/
theorem C6_primary_image_invariant (imgs : List ListingImage)
    (img : ListingImage) (hnd : (imgs.map fun i => i.iid).Nodup) :
    (img.is_primary = true →
      primaryCount img.parent (productImageSave imgs img) = 1 ∧
      ((mateImageSave imgs img).1.isSome = true →
        primaryCount img.parent (mateImageSave imgs img).2 = 1) ∧
      ((mateImageSave imgs img).1 = none →
        primaryCount img.parent (mateImageSave imgs img).2 = 0)) ∧
    (∀ L, primaryCount L imgs ≤ 1 →
      primaryCount L (productImageSave imgs img) ≤ 1 ∧
      primaryCount L (mateImageSave imgs img).2 ≤ 1) := by
  constructor
  · intro hprim
    refine ⟨productImageSave_primary_count hnd hprim, fun hs => ?_, fun hf => ?_⟩
    · rw [mateImageSave_success_eq hs]
      exact productImageSave_primary_count hnd hprim
    · rw [mateImageSave_failure_eq hf, if_pos hprim]
      exact primaryCount_clearPrimary_self _ _
  · intro L hle
    have hprod : primaryCount L (productImageSave imgs img) ≤ 1 := by
      by_cases hprim : img.is_primary = true
      · by_cases hL : img.parent = L
        · rw [← hL, productImageSave_primary_count hnd hprim]
        · rw [productImageSave, if_pos hprim]
          refine le_trans (primaryCount_upsert_le (Or.inl hL)) ?_
          exact le_trans (primaryCount_clearPrimary_le L img.parent imgs) hle
      · rw [Bool.not_eq_true] at hprim
        rw [productImageSave, if_neg (by simp [hprim])]
        exact le_trans (primaryCount_upsert_le (Or.inr hprim)) hle
    refine ⟨hprod, ?_⟩
    rcases hres : (mateImageSave imgs img).1 with _ | u
    · rw [mateImageSave_failure_eq hres]
      split
      · exact le_trans (primaryCount_clearPrimary_le L img.parent imgs) hle
      · exact hle
    · rw [mateImageSave_success_eq (by rw [hres]; rfl)]
      exact hprod

/-- Witness for C6: saving `wImg2` as primary while `wImg1` is the current
primary of listing `p1` leaves exactly one primary image. -/
theorem C6_primary_image_invariant_witness :
    primaryCount "p1" (productImageSave [wImg1] wImg2) = 1 ∧
    primaryCount "p1" [wImg1] ≤ 1 ∧
    primaryCount "p1" (mateImageSave [wImg1] wImg2).2 ≤ 1 :=
  ⟨((C6_primary_image_invariant [wImg1] wImg2 (by decide)).1 rfl).1,
   by decide,
   ((C6_primary_image_invariant [wImg1] wImg2 (by decide)).2 "p1"
      (by decide)).2⟩

/-! ### C7: cart accumulation and totals -/

theorem cartGet_nil (k : String) : cartGet [] k = 0 := rfl

theorem cartGet_append_fresh (cart : List (String × Nat)) (k : String)
    (v : Nat) (h : (cart.any fun e => e.1 == k) = false) :
    cartGet (cart ++ [(k, v)]) k = v := by
  induction cart with
  | nil => simp [cartGet]
  | cons e es ih =>
      simp only [List.any_cons, Bool.or_eq_false_iff] at h
      rw [List.cons_append, cartGet, List.find?_cons_of_neg _ (by simp [h.1])]
      exact ih h.2

theorem cartGet_append_other (cart : List (String × Nat)) (k : String)
    (v : Nat) (k2 : String) (hk : ¬ k2 = k) :
    cartGet (cart ++ [(k, v)]) k2 = cartGet cart k2 := by
  induction cart with
  | nil =>
      rw [List.nil_append, cartGet,
        List.find?_cons_of_neg (p := fun x : String × Nat => x.1 == k2) _
          (by simp only [beq_iff_eq]; exact fun h : k = k2 => hk h.symm)]
      rfl
  | cons e es ih =>
      by_cases he : (e.1 == k2) = true
      · rw [List.cons_append, cartGet,
          List.find?_cons_of_pos (p := fun x : String × Nat => x.1 == k2) _ he, cartGet,
          List.find?_cons_of_pos (p := fun x : String × Nat => x.1 == k2) _ he]
      · rw [List.cons_append, cartGet,
          List.find?_cons_of_neg (p := fun x : String × Nat => x.1 == k2) _ he, cartGet,
          List.find?_cons_of_neg (p := fun x : String × Nat => x.1 == k2) _ he]
        exact ih

theorem cartGet_map_replace (cart : List (String × Nat)) (k : String)
    (v : Nat) (h : (cart.any fun e => e.1 == k) = true) :
    cartGet (cart.map fun e => if e.1 == k then (k, v) else e) k = v := by
  induction cart with
  | nil => simp at h
  | cons e es ih =>
      simp only [List.map_cons]
      by_cases he : (e.1 == k) = true
      · rw [if_pos he, cartGet,
          List.find?_cons_of_pos (p := fun x : String × Nat => x.1 == k) _ (by simp)]
        rfl
      · rw [if_neg he]
        have h2 : (es.any fun e => e.1 == k) = true := by
          simpa [List.any_cons, he] using h
        rw [cartGet, List.find?_cons_of_neg (p := fun x : String × Nat => x.1 == k) _ he]
        exact ih h2

theorem cartGet_map_replace_other (cart : List (String × Nat)) (k : String)
    (v : Nat) (k2 : String) (hk : ¬ k2 = k) :
    cartGet (cart.map fun e => if e.1 == k then (k, v) else e) k2 =
      cartGet cart k2 := by
  induction cart with
  | nil => rfl
  | cons e es ih =>
      simp only [List.map_cons]
      by_cases he : (e.1 == k) = true
      · have h1 : ¬ ((k, v).1 == k2) = true := by
          simp only [beq_iff_eq]
          exact fun h : k = k2 => hk h.symm
        have h2 : ¬ (e.1 == k2) = true := by
          simp only [beq_iff_eq] at he ⊢
          rw [he]
          exact fun h : k = k2 => hk h.symm
        rw [if_pos he, cartGet,
          List.find?_cons_of_neg (p := fun x : String × Nat => x.1 == k2) _ h1, cartGet,
          List.find?_cons_of_neg (p := fun x : String × Nat => x.1 == k2) _ h2]
        exact ih
      · rw [if_neg he]
        by_cases he2 : (e.1 == k2) = true
        · rw [cartGet,
            List.find?_cons_of_pos (p := fun x : String × Nat => x.1 == k2) _ he2, cartGet,
            List.find?_cons_of_pos (p := fun x : String × Nat => x.1 == k2) _ he2]
        · rw [cartGet,
            List.find?_cons_of_neg (p := fun x : String × Nat => x.1 == k2) _ he2, cartGet,
            List.find?_cons_of_neg (p := fun x : String × Nat => x.1 == k2) _ he2]
          exact ih

theorem cartGet_cartSet_self (cart : List (String × Nat)) (k : String)
    (v : Nat) : cartGet (cartSet cart k v) k = v := by
  rw [cartSet]
  split
  · rename_i h
    exact cartGet_map_replace cart k v h
  · rename_i h
    rw [Bool.not_eq_true] at h
    exact cartGet_append_fresh cart k v h

theorem cartGet_cartSet_other (cart : List (String × Nat)) (k : String)
    (v : Nat) (k2 : String) (hk : ¬ k2 = k) :
    cartGet (cartSet cart k v) k2 = cartGet cart k2 := by
  rw [cartSet]
  split
  · exact cartGet_map_replace_other cart k v k2 hk
  · exact cartGet_append_other cart k v k2 hk

theorem filter_pid_single {db : List Product} {p : Product}
    (hnd : (db.map fun q => q.pid).Nodup) (hmem : p ∈ db) :
    (db.filter fun q => p.pid == q.pid) = [p] := by
  induction db with
  | nil => cases hmem
  | cons a as ih =>
      simp only [List.map_cons, List.nodup_cons] at hnd
      rcases List.mem_cons.mp hmem with rfl | hmem2
      · rw [List.filter_cons_of_pos (by simp)]
        have hnil : (as.filter fun q => p.pid == q.pid) = [] := by
          rw [List.filter_eq_nil_iff]
          intro b hb hcontra
          rw [beq_iff_eq] at hcontra
          exact hnd.1 (by rw [hcontra]; exact List.mem_map_of_mem _ hb)
        rw [hnil]
      · have hne : (p.pid == a.pid) = false := by
          rcases Bool.eq_false_or_eq_true (p.pid == a.pid) with h | h
          · rw [beq_iff_eq] at h
            exact absurd (by rw [← h]; exact List.mem_map_of_mem _ hmem2)
              hnd.1
          · exact h
        rw [List.filter_cons_of_neg (by simp [hne])]
        exact ih hnd.2 hmem2

theorem cartTotal_single (db : List Product) (p : Product) (n : Nat)
    (hnd : (db.map fun q => q.pid).Nodup) (hmem : p ∈ db) :
    cartTotal db [(p.pid, n)] = discounted_price p * (n : ℚ) := by
  rw [cartTotal]
  have hpred : ∀ q : Product,
      ([(p.pid, n)].any fun e => e.1 == q.pid) = (p.pid == q.pid) := by
    intro q
    simp [List.any_cons]
  simp only [hpred]
  rw [filter_pid_single hnd hmem]
  simp only [List.map_cons, List.map_nil, List.sum_cons, List.sum_nil,
    add_zero]
  congr 1
  rw [cartGet,
    List.find?_cons_of_pos (p := fun e : String × Nat => e.1 == p.pid) _ (by simp)]
  rfl

/-- C7: `addToCart` increments the existing quantity or inserts a new
entry, only ever increasing quantities; adding quantity 2 then 3 for a
listing to the empty cart yields quantity 5, and the cart total is then
5 × the effective price of that listing. -/
theorem C7_add_to_cart (db : List Product) (cart : List (String × Nat))
    (p : Product) (qty : Int) (hq : 1 ≤ qty)
    (hfind : db.find? (fun q => q.pid == p.pid && q.is_approved) = some p)
    (hnd : (db.map fun q => q.pid).Nodup) (hmem : p ∈ db) :
    (∃ cart2, addToCart db cart p.pid qty = some cart2 ∧
      cartGet cart2 p.pid = cartGet cart p.pid + qty.toNat ∧
      (∀ k, ¬ k = p.pid → cartGet cart2 k = cartGet cart k) ∧
      (∀ k, cartGet cart k ≤ cartGet cart2 k)) ∧
    (∀ c2 c3, addToCart db [] p.pid 2 = some c2 →
      addToCart db c2 p.pid 3 = some c3 →
      cartGet c3 p.pid = 5 ∧ cartTotal db c3 = 5 * discounted_price p) := by
  have hmax : ∀ q : Int, 1 ≤ q → (max q 1).toNat = q.toNat := by
    intro q h
    rw [max_eq_left h]
  constructor
  · refine ⟨cartSet cart p.pid (cartGet cart p.pid + (max qty 1).toNat),
      ?_, ?_, ?_, ?_⟩
    · rw [addToCart, hfind]
    · rw [cartGet_cartSet_self, hmax qty hq]
    · intro k hk
      exact cartGet_cartSet_other _ _ _ _ hk
    · intro k
      by_cases hk : k = p.pid
      · rw [hk, cartGet_cartSet_self]
        omega
      · rw [cartGet_cartSet_other _ _ _ _ hk]
  · intro c2 c3 h2 h3
    simp only [addToCart, hfind] at h2 h3
    have hc2 : c2 = [(p.pid, 2)] := by
      have heq : cartSet [] p.pid (cartGet [] p.pid + (max (2:Int) 1).toNat) =
          [(p.pid, 2)] := by rfl
      rw [heq] at h2
      exact ((Option.some.injEq _ _).mp h2).symm
    have hg2 : cartGet [(p.pid, 2)] p.pid = 2 := by
      rw [cartGet,
        List.find?_cons_of_pos (p := fun e : String × Nat => e.1 == p.pid) _ (by simp)]
      rfl
    have hc3 : c3 = [(p.pid, 5)] := by
      rw [hc2] at h3
      have hset : cartSet [(p.pid, 2)] p.pid
          (cartGet [(p.pid, 2)] p.pid + (max (3:Int) 1).toNat) =
          [(p.pid, 5)] := by
        rw [hg2, cartSet, if_pos (by simp), List.map_cons, List.map_nil,
          if_pos (by simp), hmax 3 (by norm_num)]
        rfl
      rw [hset] at h3
      exact ((Option.some.injEq _ _).mp h3).symm
    constructor
    · rw [hc3, cartGet,
        List.find?_cons_of_pos (p := fun e : String × Nat => e.1 == p.pid) _ (by simp)]
      rfl
    · rw [hc3, cartTotal_single db p 5 hnd hmem]
      push_cast
      ring

/-- Witness for C7: `wProd` added with quantity 2 then 3 to the empty cart
of a one-product store gives quantity 5 and total 5 × 75. -/
theorem C7_add_to_cart_witness :
    (∃ cart2, addToCart [wProd] [] "p1" 2 = some cart2 ∧
      cartGet cart2 "p1" = cartGet ([] : List (String × Nat)) "p1" +
        (2 : Int).toNat ∧
      (∀ k, ¬ k = "p1" → cartGet cart2 k =
        cartGet ([] : List (String × Nat)) k) ∧
      (∀ k, cartGet ([] : List (String × Nat)) k ≤ cartGet cart2 k)) ∧
    (∀ c2 c3, addToCart [wProd] [] "p1" 2 = some c2 →
      addToCart [wProd] c2 "p1" 3 = some c3 →
      cartGet c3 "p1" = 5 ∧ cartTotal [wProd] c3 = 5 * discounted_price wProd) := by
  have h := C7_add_to_cart [wProd] [] wProd 2 (by decide) (by decide)
    (by decide) (by decide)
  exact h

/-! ### C9 and C2: registration -/

theorem find?_append_none {l1 l2 : List α} {p : α → Bool}
    (h : ∀ x ∈ l1, ¬ p x = true) :
    (l1 ++ l2).find? p = l2.find? p := by
  induction l1 with
  | nil => rfl
  | cons a as ih =>
      rw [List.cons_append,
        List.find?_cons_of_neg _ (h a (List.mem_cons_self a as))]
      exact ih fun x hx => h x (List.mem_cons_of_mem a hx)

/-- C9: a register request with mismatched passwords, an already-registered
email, or a blank phone fails with ValidationError and leaves the whole
store (in particular the identity store) unchanged. -/
theorem C9_register_validation (now newUid newOid : Nat) (code : String)
    (inp : RegisterInput) (st : AppState)
    (h : ¬ inp.password1 = inp.password2 ∨
      (∃ u ∈ st.users, u.email = inp.email) ∨
      phoneBlank inp.phone = true) :
    (register now newUid newOid code inp st).1 = .validationError ∧
    (register now newUid newOid code inp st).2 = st := by
  rw [register]
  by_cases h1 : (inp.password1 == inp.password2) = true
  · rw [if_neg (by simp [h1])]
    by_cases h2 : (st.users.any fun u => u.email == inp.email) = true
    · rw [if_pos h2]
      exact ⟨rfl, rfl⟩
    · rw [if_neg h2]
      have h3 : phoneBlank inp.phone = true := by
        rcases h with h | h | h
        · exact absurd (beq_iff_eq.mp h1) h
        · rcases h with ⟨u, hu, he⟩
          exact absurd (List.any_eq_true.mpr ⟨u, hu, by simp [he]⟩) h2
        · exact h
      rw [if_pos h3]
      exact ⟨rfl, rfl⟩
  · rw [Bool.not_eq_true] at h1
    rw [if_pos (by simp [h1])]
    exact ⟨rfl, rfl⟩

/-- Witness for C9: registering the email of `wUserA` again fails with
ValidationError and the store is unchanged. -/
theorem C9_register_validation_witness :
    (register 0 7 70 "123456"
      ⟨"Eve", "Poe", "a@x.com", "0172", "pw", "pw", "NORMAL"⟩ wState).1 =
      .validationError ∧
    (register 0 7 70 "123456"
      ⟨"Eve", "Poe", "a@x.com", "0172", "pw", "pw", "NORMAL"⟩ wState).2 =
      wState :=
  C9_register_validation 0 7 70 "123456"
    ⟨"Eve", "Poe", "a@x.com", "0172", "pw", "pw", "NORMAL"⟩ wState
    (Or.inr (Or.inl ⟨wUserA, by decide, by decide⟩))

/-- C2: a valid registration creates exactly one user; a SELLER is created
unverified together with exactly one OTP record (unused, expiring ten
minutes after creation) and the pending-session marker, and cannot
authenticate; a NORMAL user is created verified, no OTP is issued, and they
can authenticate at once. -/
theorem C2_register_roles (now newUid newOid : Nat) (code : String)
    (inp : RegisterInput) (st : AppState)
    (hpw : inp.password1 = inp.password2)
    (hemail : ∀ u ∈ st.users, ¬ u.email = inp.email)
    (hphone : phoneBlank inp.phone = false)
    (hne : ¬ inp.email = "") :
    (inp.role = "SELLER" →
      (register now newUid newOid code inp st).1 = .redirectVerifyOtp ∧
      (register now newUid newOid code inp st).2.users = st.users ++
        [{ uid := newUid, email := inp.email, phone := inp.phone,
           password := inp.password1, role := inp.role,
           is_verified := false }] ∧
      (register now newUid newOid code inp st).2.otps = st.otps ++
        [{ oid := newOid, userId := newUid, email := inp.email,
           otp_code := code, verification_type := "REGISTRATION",
           created_at := now, expires_at := now + 10, is_used := false }] ∧
      (register now newUid newOid code inp st).2.session.registration_email =
        some inp.email ∧
      authenticate (register now newUid newOid code inp st).2.users
        inp.email inp.password1 = none) ∧
    (inp.role = "NORMAL" →
      (register now newUid newOid code inp st).1 = .redirectLogin ∧
      (register now newUid newOid code inp st).2.users = st.users ++
        [{ uid := newUid, email := inp.email, phone := inp.phone,
           password := inp.password1, role := inp.role,
           is_verified := true }] ∧
      (register now newUid newOid code inp st).2.otps = st.otps ∧
      (register now newUid newOid code inp st).2.session = st.session ∧
      authenticate (register now newUid newOid code inp st).2.users
        inp.email inp.password1 =
        some { uid := newUid, email := inp.email, phone := inp.phone,
               password := inp.password1, role := inp.role,
               is_verified := true }) := by
  have hany : ¬ (st.users.any fun u => u.email == inp.email) = true := by
    intro hc
    rcases List.any_eq_true.mp hc with ⟨u, hu, he⟩
    exact hemail u hu (beq_iff_eq.mp he)
  have hreg : ∀ r : Role, inp.role = r →
      register now newUid newOid code inp st =
        (if (inp.role == "SELLER") = true then
          (.redirectVerifyOtp,
            { users := st.users ++
                [{ uid := newUid, email := inp.email, phone := inp.phone,
                   password := inp.password1, role := inp.role,
                   is_verified := false }]
              otps := st.otps ++
                [{ oid := newOid, userId := newUid, email := inp.email,
                   otp_code := code, verification_type := "REGISTRATION",
                   created_at := now, expires_at := now + 10,
                   is_used := false }]
              session := { st.session with
                           registration_email := some inp.email } })
        else
          (.redirectLogin,
            { users := st.users ++
                [{ uid := newUid, email := inp.email, phone := inp.phone,
                   password := inp.password1, role := inp.role,
                   is_verified := true }]
              otps := st.otps
              session := st.session })) := by
    intro r _
    rw [register, if_neg (by simp [hpw]), if_neg hany, if_neg (by simp [hphone]),
      if_neg (by simp [hne])]
  constructor
  · intro hrole
    rw [hreg "SELLER" hrole, if_pos (by simp [hrole])]
    refine ⟨rfl, rfl, rfl, rfl, ?_⟩
    rw [authenticate, List.find?_eq_none]
    intro u hu
    rcases List.mem_append.mp hu with hu | hu
    · simp [beq_eq_false_iff_ne.mpr fun he => hemail u hu he]
    · rcases List.mem_singleton.mp hu with rfl
      simp
  · intro hrole
    rw [hreg "NORMAL" hrole, if_neg (by simp [hrole])]
    refine ⟨rfl, rfl, rfl, rfl, ?_⟩
    rw [authenticate,
      find?_append_none fun u hu => by
        simp [beq_eq_false_iff_ne.mpr fun he => hemail u hu he],
      List.find?_cons_of_pos _ (by simp)]

/-- Witness for C2: registering a seller and a normal user on the fresh
store. -/
theorem C2_register_roles_witness :
    ((register 0 1 10 "654321" wRegInput wEmptyState).1 =
        .redirectVerifyOtp ∧
      authenticate (register 0 1 10 "654321" wRegInput wEmptyState).2.users
        "c@x.com" "pw" = none) ∧
    ((register 0 2 20 "654321" wRegInputN wEmptyState).1 = .redirectLogin ∧
      authenticate (register 0 2 20 "654321" wRegInputN wEmptyState).2.users
        "d@x.com" "pw" =
        some { uid := 2, email := "d@x.com", phone := "0171",
               password := "pw", role := "NORMAL", is_verified := true }) := by
  have hs := (C2_register_roles 0 1 10 "654321" wRegInput wEmptyState rfl
    (by intro u hu; cases hu) (by decide) (by decide)).1 rfl
  have hn := (C2_register_roles 0 2 20 "654321" wRegInputN wEmptyState rfl
    (by intro u hu; cases hu) (by decide) (by decide)).2 rfl
  exact ⟨⟨hs.1, hs.2.2.2.2⟩, ⟨hn.1, hn.2.2.2.2⟩⟩

/-! ### C1 and C10: OTP verification -/

/-- C1 (amended): with no pending-verification marker, verifyOtp fails
with SessionError (redirect to registration) leaving state unchanged.
With a pending marker, it succeeds iff EXACTLY ONE OTPVerification record
matches (same code, unused, expiry strictly in the future); on success it
marks that record used, marks its user verified, authenticates that user
in the session and clears the marker, and the consumed code then fails
with InvalidOtpError in any later pending session (so the flips happen
exactly once); with no matching record it fails with InvalidOtpError and
the whole state, marker included, is unchanged; with two or more matching
records (duplicate codes) it fails with an unhandled
MultipleObjectsReturned error, neither success nor InvalidOtpError, state
unchanged. -/
theorem C1_verify_otp (st : AppState) (now : Nat) (code : String) :
    (hasPendingMarker st.session = false →
      (verifyOtp now code st).1 = .sessionError ∧
      (verifyOtp now code st).2 = st) ∧
    (hasPendingMarker st.session = true →
      ((∃ u, (verifyOtp now code st).1 = .success u) ↔
        (st.otps.filter (otpMatches now code)).length = 1) ∧
      (∀ o, st.otps.filter (otpMatches now code) = [o] →
        (verifyOtp now code st).1 = .success o.userId ∧
        (verifyOtp now code st).2.otps = (st.otps.map fun x =>
          if x.oid == o.oid then { x with is_used := true } else x) ∧
        (verifyOtp now code st).2.users = (st.users.map fun u =>
          if u.uid == o.userId then { u with is_verified := true } else u) ∧
        (verifyOtp now code st).2.session.auth_user = some o.userId ∧
        (verifyOtp now code st).2.session.registration_email = none ∧
        (∀ now2 s2, now ≤ now2 → hasPendingMarker s2 = true →
          (verifyOtp now2 code
            { users := (verifyOtp now code st).2.users
              otps := (verifyOtp now code st).2.otps
              session := s2 }).1 = .invalidOtp)) ∧
      (st.otps.filter (otpMatches now code) = [] →
        (verifyOtp now code st).1 = .invalidOtp ∧
        (verifyOtp now code st).2 = st) ∧
      (2 ≤ (st.otps.filter (otpMatches now code)).length →
        (verifyOtp now code st).1 = .multipleMatch ∧
        (verifyOtp now code st).2 = st)) := by
  constructor
  · intro hps
    rw [verifyOtp, if_pos (by simp [hps])]
    exact ⟨rfl, rfl⟩
  · intro hps
    rcases hshape : st.otps.filter (otpMatches now code)
      with _ | ⟨a, _ | ⟨b, rest⟩⟩
    · have hv : verifyOtp now code st = (.invalidOtp, st) := by
        rw [verifyOtp, if_neg (by simp [hps]), hshape]
      refine ⟨?_, ?_, fun _ => ⟨by rw [hv], by rw [hv]⟩, ?_⟩
      · simp [hv]
      · intro o ho
        simp at ho
      · intro hc
        simp at hc
    · have hv : verifyOtp now code st = (.success a.userId,
          { users := st.users.map fun u =>
              if u.uid == a.userId then { u with is_verified := true } else u
            otps := st.otps.map fun x =>
              if x.oid == a.oid then { x with is_used := true } else x
            session := { registration_email := none
                         auth_user := some a.userId
                         cart := st.session.cart } }) := by
        rw [verifyOtp, if_neg (by simp [hps]), hshape]
      refine ⟨⟨fun _ => rfl, fun _ => ⟨a.userId, by rw [hv]⟩⟩,
        ?_, ?_, ?_⟩
      · intro o ho
        simp only [List.cons.injEq, and_true] at ho
        rcases ho with rfl
        refine ⟨by rw [hv], by rw [hv], by rw [hv], by rw [hv], by rw [hv],
          ?_⟩
        intro now2 s2 hnow hs2
        have hnil : ((st.otps.map fun x =>
            if x.oid == a.oid then { x with is_used := true } else x).filter
              (otpMatches now2 code)) = [] := by
          rw [List.filter_eq_nil_iff]
          intro x hx
          rcases List.mem_map.mp hx with ⟨y, hy, rfl⟩
          by_cases hid : (y.oid == a.oid) = true
          · rw [if_pos hid]
            simp [otpMatches]
          · rw [if_neg hid]
            have hnm : ¬ otpMatches now code y = true := by
              intro hm
              have hyf : y ∈ st.otps.filter (otpMatches now code) :=
                List.mem_filter.mpr ⟨hy, hm⟩
              rw [hshape] at hyf
              rcases List.mem_singleton.mp hyf with rfl
              exact hid (by simp)
            intro hm2
            apply hnm
            simp only [otpMatches, Bool.and_eq_true, beq_iff_eq,
              decide_eq_true_eq] at hm2 ⊢
            obtain ⟨hm2a, hm2b⟩ := hm2
            exact ⟨hm2a, by omega⟩
        simp only [hv]
        rw [verifyOtp, if_neg (by simp [hs2]), hnil]
      · intro hc
        simp at hc
      · intro hc
        simp only [List.length_cons, List.length_nil] at hc
        omega
    · have hv : verifyOtp now code st = (.multipleMatch, st) := by
        rw [verifyOtp, if_neg (by simp [hps]), hshape]
      refine ⟨?_, ?_, ?_, fun _ => ⟨by rw [hv], by rw [hv]⟩⟩
      · constructor
        · rintro ⟨u, hu⟩
          rw [hv] at hu
          exact VerifyOutcome.noConfusion hu
        · intro h2
          simp only [List.length_cons] at h2
          omega
      · intro o ho
        simp at ho
      · intro hc
        simp at hc

/-- Witness for C1: on `wState` (pending session, one OTP with code
222222 expiring at 10), submitting 222222 at time 5 succeeds and logs in
user 2, a second attempt at time 9 from a fresh pending session fails with
InvalidOtpError, and a wrong code fails with InvalidOtpError. -/
theorem C1_verify_otp_witness :
    (verifyOtp 5 "222222" wState).1 = .success 2 ∧
    (verifyOtp 5 "222222" wState).2.session.registration_email = none ∧
    (verifyOtp 9 "222222"
      { users := (verifyOtp 5 "222222" wState).2.users
        otps := (verifyOtp 5 "222222" wState).2.otps
        session := wSession }).1 = .invalidOtp ∧
    (verifyOtp 5 "000000" wState).1 = .invalidOtp := by
  have h := ((C1_verify_otp wState 5 "222222").2 (by decide)).2.1 wOtpB
    (by decide)
  have h0 := (((C1_verify_otp wState 5 "000000").2 (by decide)).2.2.1
    (by decide)).1
  exact ⟨h.1, h.2.2.2.2.1, h.2.2.2.2.2 9 wSession (by decide) (by decide),
    h0⟩

/-- Counterexample for C1 as stated: in `wStateDup` two unused, unexpired
OTP rows carry code 222222, so a matching record exists, yet verifyOtp
neither succeeds nor fails with InvalidOtpError — the uncaught
`MultipleObjectsReturned` of `.get()` surfaces instead. -/
theorem C1_counterexample :
    (wStateDup.otps.filter (otpMatches 5 "222222")).length = 2 ∧
    (verifyOtp 5 "222222" wStateDup).1 = .multipleMatch ∧
    ¬ (∃ u, (verifyOtp 5 "222222" wStateDup).1 = .success u) ∧
    ¬ (verifyOtp 5 "222222" wStateDup).1 = .invalidOtp := by
  refine ⟨by decide, by decide, ?_, by decide⟩
  rintro ⟨u, hu⟩
  have hm : (verifyOtp 5 "222222" wStateDup).1 = .multipleMatch := by decide
  rw [hm] at hu
  exact VerifyOutcome.noConfusion hu

/-- C10: verifyOtp matches by code alone, with no tie to the session
pending email: a session pending for user A that submits the unique
matching code issued to a different user B logs B in and marks B verified,
while A stays unverified. -/
theorem C10_cross_user_otp (st : AppState) (now : Nat) (code eA : String)
    (uA uB : User) (o : OTPVerification)
    (hsession : st.session.registration_email = some eA)
    (heA : ¬ eA = "")
    (hfilter : st.otps.filter (otpMatches now code) = [o])
    (hBo : o.userId = uB.uid) (hB : uB ∈ st.users)
    (hA : uA ∈ st.users) (hAne : ¬ uA.uid = uB.uid)
    (hAunv : uA.is_verified = false) :
    (verifyOtp now code st).1 = .success uB.uid ∧
    (verifyOtp now code st).2.session.auth_user = some uB.uid ∧
    { uB with is_verified := true } ∈ (verifyOtp now code st).2.users ∧
    uA ∈ (verifyOtp now code st).2.users ∧ uA.is_verified = false := by
  have hps : hasPendingMarker st.session = true := by
    rw [hasPendingMarker, hsession]
    simp [heA]
  have hv : verifyOtp now code st = (.success o.userId,
      { users := st.users.map fun u =>
          if u.uid == o.userId then { u with is_verified := true } else u
        otps := st.otps.map fun x =>
          if x.oid == o.oid then { x with is_used := true } else x
        session := { registration_email := none
                     auth_user := some o.userId
                     cart := st.session.cart } }) := by
    rw [verifyOtp, if_neg (by simp [hps]), hfilter]
  refine ⟨by rw [hv, hBo], by rw [hv, hBo], ?_, ?_, hAunv⟩
  · rw [hv]
    refine List.mem_map.mpr ⟨uB, hB, ?_⟩
    rw [if_pos (by simp [hBo])]
  · rw [hv]
    refine List.mem_map.mpr ⟨uA, hA, ?_⟩
    rw [if_neg (by simp [hBo, hAne])]

/-- Witness for C10: on `wState`, the session pending for `a@x.com`
submits the code issued to user B (uid 2); B is logged in and verified
while `wUserA` stays unverified. -/
theorem C10_cross_user_otp_witness :
    (verifyOtp 5 "222222" wState).1 = .success 2 ∧
    (verifyOtp 5 "222222" wState).2.session.auth_user = some 2 ∧
    { uid := 2, email := "b@x.com", phone := "222", password := "pwB",
      role := "SELLER", is_verified := true } ∈
      (verifyOtp 5 "222222" wState).2.users ∧
    wUserA ∈ (verifyOtp 5 "222222" wState).2.users ∧
    wUserA.is_verified = false := by
  have h := C10_cross_user_otp wState 5 "222222" "a@x.com" wUserA wUserB
    wOtpB rfl (by decide) (by decide) rfl (by decide) (by decide)
    (by decide) rfl
  exact ⟨h.1, h.2.1, h.2.2.1, h.2.2.2⟩

end Mewzone
